import Mathlib

/-
Formal model of yolo_world/models/detectors/yolo_world.py.

Tensors are modelled shape-explicitly with rational entries: a 2-D tensor
is a Mat (rows, cols, and a total valuation function), higher-rank data
appears as nested lists.  External collaborators (backbone, neck, head,
the runtime sigmoid and square root) are fields or parameters, since the
repository fragment only calls into them.  Python dynamic failures
(TypeError, IndexError, AssertionError, AttributeError) are modelled with
an Except monad.  Decimal literals of the source (0.5, 1e-12) are read as
exact rationals.
-/

set_option autoImplicit false

namespace YOLOWorldSpec

/-- Python exception kinds that the modelled code can raise. -/
inductive PyErr where
  | typeError
  | indexError
  | assertionError
  | attributeError
  deriving DecidableEq, Repr

/-- A Python object as far as the modelled code inspects it: either a
string or some non-string object. -/
inductive PyObj where
  | str (s : String)
  | nonstr
  deriving DecidableEq, Repr

/-- A Python list of objects, used for per-sample text lists. -/
abbrev PyList := List PyObj

/-- A batch of per-sample text lists, the shape taken by forward_text. -/
abbrev TextsTy := List PyList

/-- Text features: a rank-3 rational tensor [batch, classes, dim]. -/
abbrev TxtFeats := List (List (List ℚ))

/-- One multi-scale image feature map; only the batch size is inspected
by the modelled code, the payload stays a valuation function. -/
structure FeatMap where
  batch : ℕ
  val : ℕ → ℕ → ℕ → ℕ → ℚ

/-- The zero feature map, used as an out-of-range default. -/
def fmZero : FeatMap := ⟨0, fun _ _ _ _ => 0⟩

instance : Inhabited FeatMap := ⟨fmZero⟩

/-- Image features: one feature map per scale level. -/
abbrev ImgFeats := List FeatMap

/-- The batched input image tensor [B, C, H, W]. -/
abbrev BatchInputs := List (List (List (List ℚ)))

/-- The dense class-embedding map [1, dim, h, w] passed to the query. -/
abbrev ClsEmbed := List (List (List (List ℚ)))

/-- Opaque result payload of the external head predict routine. -/
abbrev PredResults := List (List ℚ)

/-- A 2-D rational tensor with explicit shape and total valuation. -/
structure Mat where
  rows : ℕ
  cols : ℕ
  val : ℕ → ℕ → ℚ

/-- The empty matrix, used as an out-of-range default. -/
def matZero : Mat := ⟨0, 0, fun _ _ => 0⟩

instance : Inhabited Mat := ⟨matZero⟩

/-- A 3-D rational tensor with explicit shape and total valuation. -/
structure Mat3 where
  d0 : ℕ
  d1 : ℕ
  d2 : ℕ
  val : ℕ → ℕ → ℕ → ℚ

/-- Elementwise application of the runtime sigmoid to a matrix. -/
def Mat.sigmoidMap (sig : ℚ → ℚ) (m : Mat) : Mat :=
  ⟨m.rows, m.cols, fun i j => sig (m.val i j)⟩

/-- torch.stack(ms, dim=0) for a list of equally shaped [C, V] mats,
giving [H, C, V]; the shape is read off the first element as torch
rejects ragged stacks. -/
def stackMats (ms : List Mat) : Mat3 :=
  ⟨ms.length, (ms.getD 0 matZero).rows, (ms.getD 0 matZero).cols,
    fun h c v => (ms.getD h matZero).val c v⟩

/-- x.permute(2, 0, 1): the output at [a, b, c] reads x at [b, c, a]. -/
def Mat3.permute201 (t : Mat3) : Mat3 :=
  ⟨t.d2, t.d0, t.d1, fun a b c => t.val b c a⟩

/-- x.permute(1, 0) of a 2-D tensor. -/
def Mat.transposeMat (m : Mat) : Mat :=
  ⟨m.cols, m.rows, fun i j => m.val j i⟩

/-- x[:, :-1]: drop the final column. -/
def dropLastCol (m : Mat) : Mat :=
  ⟨m.rows, m.cols - 1, m.val⟩

/-- The in-place masked update x[mask] = x[mask] / (x[mask].sum(dim=1,
keepdim=True) + eps): rows selected by the boolean mask are divided by
their row sum plus eps, other rows are untouched. -/
def renormMaskedRows (mask : ℕ → Bool) (eps : ℚ) (m : Mat) : Mat :=
  ⟨m.rows, m.cols, fun v h =>
    if mask v then m.val v h / ((∑ j ∈ Finset.range m.cols, m.val v j) + eps)
    else m.val v h⟩

/-- (t * w[..., None]).sum(dim=1) for t of shape [V, H, C] and w of
shape [V, H]: the weight column broadcasts over the class dimension and
the head dimension is summed away, giving [V, C]. -/
def weightedSumHeads (t : Mat3) (w : Mat) : Mat :=
  ⟨t.d0, t.d2, fun v c => ∑ h ∈ Finset.range t.d1, t.val v h c * w.val v h⟩

/-- torch.stack(ms, dim=0).mean(dim=0): elementwise sum over the list
divided by its length. -/
def meanStack (ms : List Mat) : Mat :=
  ⟨(ms.getD 0 matZero).rows, (ms.getD 0 matZero).cols,
    fun c v => (∑ h ∈ Finset.range ms.length, (ms.getD h matZero).val c v) / (ms.length : ℚ)⟩

/-- Fold step for torch.max along a dimension: scan the remaining
entries keeping the running maximum and the index where it was first
attained; a strictly larger entry replaces the running best, so ties
keep the earlier index. -/
def listMaxArgAux (i : ℕ) (best : ℚ × ℕ) : List ℚ → ℚ × ℕ
  | [] => best
  | x :: t => listMaxArgAux (i + 1) (if best.1 < x then (x, i) else best) t

/-- torch.max over a nonempty list of entries: the maximum value and
the first index attaining it.  The empty case never arises in torch
(it raises) and is mapped to (0, 0). -/
def listMaxArg : List ℚ → ℚ × ℕ
  | [] => (0, 0)
  | x :: t => listMaxArgAux 1 (x, 0) t

/-- Column v of a [C, V] matrix as the list of its class entries. -/
def colListQ (m : Mat) (v : ℕ) : List ℚ :=
  (List.range m.rows).map (fun c => m.val c v)

/-- torch.max(m, dim=0) scores: per location, the maximum over the
class dimension. -/
def torchMaxScores (m : Mat) : ℕ → ℚ :=
  fun v => (listMaxArg (colListQ m v)).1

/-- torch.max(m, dim=0) indices: per location, the class index at which
the maximum is attained. -/
def torchMaxLabels (m : Mat) : ℕ → ℕ :=
  fun v => (listMaxArg (colListQ m v)).2

/-- One element of a list-form batch_data_samples: whether the object
exposes a texts attribute, and the per-sample text list behind it. -/
structure DataSample where
  hasTexts : Bool
  texts : PyList
  deriving DecidableEq, Repr

/-- Attribute access data_sample.texts: raises AttributeError when the
attribute is absent. -/
def DataSample.getTexts (ds : DataSample) : Except PyErr PyList :=
  if ds.hasTexts then .ok ds.texts else .error .attributeError

/-- The batch_data_samples argument as the code inspects it: the Python
None, a dict (with or without a texts key), a list of data samples, or
any other object. -/
inductive BatchSamples where
  | pynone
  | dict (hasTextsKey : Bool) (texts : TextsTy)
  | plist (l : List DataSample)
  | other

/-- The list comprehension [data_sample.texts for data_sample in l]:
attribute accesses run left to right and the first missing attribute
raises. -/
def gatherTexts : List DataSample → Except PyErr TextsTy
  | [] => .ok []
  | ds :: rest =>
    match ds.getTexts with
    | .error e => .error e
    | .ok t =>
      match gatherTexts rest with
      | .error e => .error e
      | .ok ts => .ok (t :: ts)

/-- One head_module.cls_contrasts element: an external contrastive
submodule with the two similarity variants the query routine selects
between; each returns a per-class per-location logit map [C, V]. -/
structure ClsContrast where
  forward_no_normalization : ClsEmbed → TxtFeats → Mat
  forward_flattened : ClsEmbed → TxtFeats → Mat

/-- A trivial contrastive head used as an out-of-range default. -/
def ccZero : ClsContrast := ⟨fun _ _ => matZero, fun _ _ => matZero⟩

instance : Inhabited ClsContrast := ⟨ccZero⟩

/-- The head_module of the detection head, holding the contrastive
submodules iterated over by the query routine. -/
structure HeadModule where
  cls_contrasts : List ClsContrast

/-- The external detection head: a mutable num_classes field and a
predict routine.  The routine receives the num_classes value that was
assigned just before the call, mirroring the field mutation. -/
structure BBoxHead where
  num_classes : ℕ
  head_module : HeadModule
  predictFn : ℕ → ImgFeats → TxtFeats → BatchSamples → Bool → PredResults

/-- The external backbone: a joint image-and-text forward (texts may be
the Python None), plus the split image-only and text-only entries. -/
structure Backbone where
  forward : BatchInputs → Option TextsTy → ImgFeats × TxtFeats
  forward_image : BatchInputs → ImgFeats
  forward_text : TextsTy → TxtFeats

/-- The external neck, callable with either one or two modalities. -/
structure Neck where
  forwardBoth : ImgFeats → TxtFeats → ImgFeats
  forwardImage : ImgFeats → ImgFeats

/-- Which backbone entry points a call executed, for the claims about
skipping the text encoder. -/
inductive BackboneCall where
  | image
  | text
  | joint
  deriving DecidableEq, Repr

/-- The YOLOWorldDetector instance state: constructor fields, external
collaborators, and the optional cached (self.texts, self.text_feats)
pair that reparameterize installs.  add_pred_to_datasample is the
framework method that attaches results to samples. -/
structure YOLOWorldDetector where
  mm_neck : Bool
  num_train_classes : ℕ
  num_test_classes : ℕ
  backbone : Backbone
  neck : Option Neck
  bbox_head : BBoxHead
  cached : Option (TextsTy × TxtFeats)
  add_pred_to_datasample : BatchSamples → PredResults → BatchSamples

/-- The neck stage shared by the extract_feat tail: multimodal mode
feeds both modalities, otherwise only image features pass through; with
no neck the image features are returned unchanged. -/
def neckApply (d : YOLOWorldDetector) (img_feats : ImgFeats) (txt_feats : TxtFeats) : ImgFeats :=
  match d.neck with
  | some nk => if d.mm_neck then nk.forwardBoth img_feats txt_feats else nk.forwardImage img_feats
  | none => img_feats

/-- YOLOWorldDetector.extract_feat.  Resolves the text source exactly as
the nested isinstance branching of the code does, then runs either the
image-only backbone entry (cached text features present) or the joint
backbone call, and finally the neck.  The returned list records which
backbone entry points ran. -/
def YOLOWorldDetector.extract_feat (d : YOLOWorldDetector) (batch_inputs : BatchInputs)
    (batch_data_samples : BatchSamples) :
    Except PyErr (ImgFeats × TxtFeats × List BackboneCall) :=
  let fallback : Except PyErr (TextsTy × Option TxtFeats) :=
    match d.cached with
    | some (ts, tf) => .ok (ts, some tf)
    | none => .error .typeError
  let resolved : Except PyErr (TextsTy × Option TxtFeats) :=
    match batch_data_samples with
    | .pynone =>
      match d.cached with
      | some (ts, tf) => .ok (ts, some tf)
      | none => .error .attributeError
    | .dict true ts => .ok (ts, none)
    | .dict false _ => fallback
    | .plist [] => .error .indexError
    | .plist (ds :: rest) =>
      if ds.hasTexts then
        match gatherTexts (ds :: rest) with
        | .error e => .error e
        | .ok ts => .ok (ts, none)
      else fallback
    | .other => fallback
  match resolved with
  | .error e => .error e
  | .ok (_, some txt_feats) =>
    let img_feats := d.backbone.forward_image batch_inputs
    .ok (neckApply d img_feats txt_feats, txt_feats, [BackboneCall.image])
  | .ok (texts, none) =>
    let pair := d.backbone.forward batch_inputs (some texts)
    .ok (neckApply d pair.1 pair.2, pair.2, [BackboneCall.joint])

/-- YOLOWorldDetector.predict: extract features, assign the head class
count from txt_feats[0].shape[0], run the head predict routine, attach
results to the samples.  The output carries the mutated detector, the
augmented samples, and the backbone call record of the extraction. -/
def YOLOWorldDetector.predict (d : YOLOWorldDetector) (batch_inputs : BatchInputs)
    (batch_data_samples : BatchSamples) (rescale : Bool) :
    Except PyErr (YOLOWorldDetector × BatchSamples × List BackboneCall) :=
  match d.extract_feat batch_inputs batch_data_samples with
  | .error e => .error e
  | .ok (img_feats, txt_feats, calls) =>
    let n := (txt_feats.getD 0 []).length
    let d2 := {d with bbox_head := {d.bbox_head with num_classes := n}}
    let results := d2.bbox_head.predictFn n img_feats txt_feats batch_data_samples rescale
    .ok (d2, d.add_pred_to_datasample batch_data_samples results, calls)

/-- YOLOWorldDetector.reparameterize: cache the texts together with the
text features computed by the backbone text entry; the call record
shows the one text-encoder invocation. -/
def YOLOWorldDetector.reparameterize (d : YOLOWorldDetector) (texts : TextsTy) :
    YOLOWorldDetector × List BackboneCall :=
  ({d with cached := some (texts, d.backbone.forward_text texts)}, [BackboneCall.text])

/-- The texts argument of query_cls_embed: a Python list of objects or
a precomputed 2-D embedding tensor [N, dim]. -/
inductive TextsArg where
  | pylist (l : List PyObj)
  | tensor (t : List (List ℚ))

/-- The text resolution prefix of query_cls_embed: a list must pass the
isinstance assertion on its element 0 (an empty list raises IndexError
from the indexing itself) and is encoded by the backbone text entry; a
tensor is reshaped to [N, 1, dim]. -/
def resolveTxtFeats (d : YOLOWorldDetector) (texts : TextsArg) : Except PyErr TxtFeats :=
  match texts with
  | .pylist l =>
    match l with
    | [] => .error .indexError
    | x :: _ =>
      match x with
      | .str _ => .ok (d.backbone.forward_text [l])
      | .nonstr => .error .assertionError
  | .tensor t => .ok (t.map (fun row => [row]))

/-- The similarity variant each contrastive head uses, selected by the
pre_normalized flag. -/
def chosenForward (pre_normalized : Bool) (cc : ClsContrast) : ClsEmbed → TxtFeats → Mat :=
  if pre_normalized then cc.forward_no_normalization else cc.forward_flattened

/-- The 1e-12 guard constant of the source, read as an exact rational. -/
def eps12 : ℚ := 1 / 1000000000000

/-- YOLOWorldDetector.query_cls_embed.  After resolving text features,
each contrastive head produces a logit map put through the runtime
sigmoid sig; the maps are combined either by the scale_logits weighted
path (mask from the final channel being below 0.5, masked rows of the
remaining channels renormalized with the 1e-12 guard, weighted sum over
heads) or by the plain mean over heads; torch.max along the class
dimension gives scores and labels.  The consider_uncertainty flag is
accepted and never read, as in the source. -/
def YOLOWorldDetector.query_cls_embed (d : YOLOWorldDetector) (sig : ℚ → ℚ)
    (texts : TextsArg) (cls_embed : ClsEmbed) (scale_logits : Option Mat)
    (consider_uncertainty : Bool) (pre_normalized : Bool) :
    Except PyErr ((ℕ → ℚ) × (ℕ → ℕ) × Mat) :=
  match resolveTxtFeats d texts with
  | .error e => .error e
  | .ok txt_feats =>
    let cls_logits := d.bbox_head.head_module.cls_contrasts.map (fun cc =>
      Mat.sigmoidMap sig (chosenForward pre_normalized cc cls_embed txt_feats))
    let cls_logit :=
      match scale_logits with
      | some sl =>
        let supervised_mask := fun v => decide (sl.val v (sl.cols - 1) < 1 / 2)
        let sl2 := dropLastCol sl
        let stacked := (stackMats cls_logits).permute201
        let sl3 := renormMaskedRows supervised_mask eps12 sl2
        (weightedSumHeads stacked sl3).transposeMat
      | none => meanStack cls_logits
    .ok (torchMaxScores cls_logit, torchMaxLabels cls_logit, cls_logit)

/-- Dot product of two rational vectors of matching length. -/
def vdot (a b : List ℚ) : ℚ := (List.zipWith (fun x y => x * y) a b).sum

/-- nn.Linear with weight rows w and bias b applied to a vector. -/
def linearApply (w : List (List ℚ)) (b : List ℚ) (x : List ℚ) : List ℚ :=
  List.zipWith (fun r bi => vdot r x + bi) w b

/-- nn.ReLU applied elementwise. -/
def reluVec (x : List ℚ) : List ℚ := x.map (fun q => max q 0)

/-- The two-layer adapter nn.Sequential(Linear(d, 2d), ReLU,
Linear(2d, d)) as its weight and bias tensors. -/
structure MLPAdapter where
  w1 : List (List ℚ)
  b1 : List ℚ
  w2 : List (List ℚ)
  b2 : List ℚ
  deriving DecidableEq, Repr

/-- Running the adapter stack on one embedding vector. -/
def MLPAdapter.applyVec (a : MLPAdapter) (x : List ℚ) : List ℚ :=
  linearApply a.w2 a.b2 (reluVec (linearApply a.w1 a.b1 x))

/-- Sum of squares of a vector, the square of its Euclidean norm. -/
def sumSq (v : List ℚ) : ℚ := (v.map (fun x => x * x)).sum

/-- nn.functional.normalize(v, dim=-1, p=2): division by the Euclidean
norm clamped below by eps (torch default 1e-12).  The runtime square
root is abstracted by the function sq, since it leaves the rationals. -/
def l2normalizeVec (sq : ℚ → ℚ) (eps : ℚ) (v : List ℚ) : List ℚ :=
  v.map (fun x => x / max (sq (sumSq v)) eps)

/-- The residual adapter update adapter(t) + t applied to each
embedding row. -/
def residualRows (a : MLPAdapter) (emb : List (List ℚ)) : List (List ℚ) :=
  emb.map (fun r => List.zipWith (fun x y => x + y) (a.applyVec r) r)

/-- The YOLOWorldPromptDetector instance state after construction. -/
structure YOLOWorldPromptDetector where
  mm_neck : Bool
  num_training_classes : ℕ
  num_test_classes : ℕ
  prompt_dim : ℕ
  num_prompts : ℕ
  freeze_prompt : Bool
  use_mlp_adapter : Bool
  embeddings : List (List ℚ)
  requires_grad : Bool
  adapter : Option MLPAdapter
  backbone : Backbone
  neck : Option Neck
  bbox_head : BBoxHead
  add_pred_to_datasample : BatchSamples → PredResults → BatchSamples

/-- YOLOWorldPromptDetector.__init__.  External effects enter as
arguments: loaded_file stands for np.load(embedding_path) (used only
when the path is nonempty), randn_init for the torch.randn sample of
the random branch, sq for the runtime square root inside the
normalization, and adapter_init for the freshly initialized adapter
(installed only when use_mlp_adapter is set).  requires_grad follows
freeze_prompt. -/
def mkPromptDetector (sq : ℚ → ℚ) (mm_neck : Bool)
    (num_train_classes num_test_classes prompt_dim num_prompts : ℕ)
    (embedding_path : String) (loaded_file : List (List ℚ)) (randn_init : List (List ℚ))
    (freeze_prompt use_mlp_adapter : Bool) (adapter_init : MLPAdapter)
    (backbone : Backbone) (neck : Option Neck) (bbox_head : BBoxHead)
    (add_pred : BatchSamples → PredResults → BatchSamples) : YOLOWorldPromptDetector :=
  { mm_neck := mm_neck
    num_training_classes := num_train_classes
    num_test_classes := num_test_classes
    prompt_dim := prompt_dim
    num_prompts := num_prompts
    freeze_prompt := freeze_prompt
    use_mlp_adapter := use_mlp_adapter
    embeddings :=
      if 0 < embedding_path.length then loaded_file
      else randn_init.map (l2normalizeVec sq eps12)
    requires_grad := !freeze_prompt
    adapter := if use_mlp_adapter then some adapter_init else none
    backbone := backbone
    neck := neck
    bbox_head := bbox_head
    add_pred_to_datasample := add_pred }

/-- YOLOWorldPromptDetector.extract_feat: image features from the
backbone called with None texts, text features from the embedding table
(adapter residual plus renormalization when an adapter is installed),
broadcast to the image batch size, then the neck. -/
def YOLOWorldPromptDetector.extract_feat (d : YOLOWorldPromptDetector) (sq : ℚ → ℚ)
    (batch_inputs : BatchInputs) : ImgFeats × TxtFeats :=
  let pair := d.backbone.forward batch_inputs none
  let img_feats := pair.1
  let txt1 :=
    match d.adapter with
    | some a => (residualRows a d.embeddings).map (l2normalizeVec sq eps12)
    | none => d.embeddings
  let bsz := (img_feats.getD 0 fmZero).batch
  let txt_feats : TxtFeats := List.replicate bsz txt1
  let img2 :=
    match d.neck with
    | some nk => if d.mm_neck then nk.forwardBoth img_feats txt_feats else nk.forwardImage img_feats
    | none => img_feats
  (img2, txt_feats)

/-- Claim C1, spec side: the per-location per-head mixing weight as the
claim words it, for H heads; below 0.5 uncertainty the remaining
weights are renormalized to sum to 1 with the small epsilon guard,
otherwise they are used as-is. -/
def claimMixWeight (sl : Mat) (H v h : ℕ) : ℚ :=
  if sl.val v H < 1 / 2 then
    sl.val v h / ((∑ j ∈ Finset.range H, sl.val v j) + eps12)
  else sl.val v h

/-- Claims C1 and C2, spec side: head number h sigmoid-transformed
similarity logit at class c and location v. -/
def claimHeadSig (sig : ℚ → ℚ) (d : YOLOWorldDetector) (pre_normalized : Bool)
    (cls_embed : ClsEmbed) (txt_feats : TxtFeats) (h c v : ℕ) : ℚ :=
  sig ((chosenForward pre_normalized (d.bbox_head.head_module.cls_contrasts.getD h ccZero)
    cls_embed txt_feats).val c v)

/-- Claim C3, spec side: the outcome of the text-source resolution as
the claim words it. -/
inductive C3Source where
  | useCacheA
  | useDictTexts (ts : TextsTy)
  | usePerSample (ts : TextsTy)
  | useCacheD
  | raiseTypeError
  deriving DecidableEq, Repr

/-- Modelled from the words of claim C3: (a) no samples, use the cache;
(b) a mapping containing a texts key, use its texts; (c) a sequence
whose elements expose a texts attribute, gather per-sample texts;
(d) cached embeddings exist, fall back to them; otherwise TypeError. -/
def claimC3Resolve (cachedExists : Bool) (bds : BatchSamples) : C3Source :=
  match bds with
  | .pynone => .useCacheA
  | .dict true ts => .useDictTexts ts
  | .plist l =>
    if l.all (fun ds => ds.hasTexts) then .usePerSample (l.map (fun ds => ds.texts))
    else if cachedExists then .useCacheD else .raiseTypeError
  | .dict false _ => if cachedExists then .useCacheD else .raiseTypeError
  | .other => if cachedExists then .useCacheD else .raiseTypeError

/-- Projection of a query result out of the Except wrapper, with a
default on the error side. -/
def exOut (e : Except PyErr ((ℕ → ℚ) × (ℕ → ℕ) × Mat)) : (ℕ → ℚ) × (ℕ → ℕ) × Mat :=
  match e with
  | .ok r => r
  | .error _ => (fun _ => 0, fun _ => 0, matZero)

/-- The result triple of the extract_feat branch that runs only the
image entry of the backbone and reuses given text features. -/
def imageResult (d : YOLOWorldDetector) (i : BatchInputs) (tf : TxtFeats) :
    ImgFeats × TxtFeats × List BackboneCall :=
  (neckApply d (d.backbone.forward_image i) tf, tf, [BackboneCall.image])

/-- The result triple of the extract_feat branch that runs the joint
image-and-text backbone call on resolved texts. -/
def jointResult (d : YOLOWorldDetector) (i : BatchInputs) (ts : TextsTy) :
    ImgFeats × TxtFeats × List BackboneCall :=
  (neckApply d (d.backbone.forward i (some ts)).1 (d.backbone.forward i (some ts)).2,
    (d.backbone.forward i (some ts)).2, [BackboneCall.joint])

/-- Identity stand-in for an external scalar function in witnesses. -/
def sigIdQ : ℚ → ℚ := fun q => q

/-- Constant-zero stand-in for the runtime square root, consistent with
the real square root on the input 0. -/
def sqZeroQ : ℚ → ℚ := fun _ => 0

/-- A one-image feature map for witnesses. -/
def fm1 : FeatMap := ⟨1, fun _ _ _ _ => 0⟩

/-- A concrete backbone for witnesses. -/
def bbW : Backbone :=
  ⟨fun _ _ => ([fm1], [[[1]]]), fun _ => [fm1], fun _ => [[[1, 0], [0, 1]]]⟩

/-- First concrete contrastive head for witnesses: two classes, one
location. -/
def ccA : ClsContrast :=
  ⟨fun _ _ => ⟨2, 1, fun c _ => if c = 0 then 3 / 10 else 7 / 10⟩,
   fun _ _ => ⟨2, 1, fun c _ => if c = 0 then 1 / 10 else 0⟩⟩

/-- Second concrete contrastive head for witnesses. -/
def ccB : ClsContrast :=
  ⟨fun _ _ => ⟨2, 1, fun c _ => if c = 0 then 1 / 2 else 1 / 5⟩,
   fun _ _ => ⟨2, 1, fun _ _ => 0⟩⟩

/-- A concrete two-head detection head for witnesses. -/
def headW : BBoxHead := ⟨80, ⟨[ccA, ccB]⟩, fun _ _ _ _ _ => []⟩

/-- A concrete text-driven detector with no cached texts. -/
def dW : YOLOWorldDetector := ⟨false, 80, 80, bbW, none, headW, none, fun s _ => s⟩

/-- An empty class-embedding map; the concrete heads ignore it. -/
def ceW : ClsEmbed := []

/-- Concrete mixing weights: one location, two head channels and one
uncertainty channel equal to 1/5, a supervised location. -/
def slW : Mat := ⟨1, 3, fun _ h => if h = 0 then 3 / 10 else if h = 1 then 2 / 5 else 1 / 5⟩

/-- A concrete tensor-form texts argument. -/
def textsW : TextsArg := .tensor [[1, 0], [0, 1]]

/-- The text features that resolving textsW produces. -/
def tfW : TxtFeats := [[[1, 0]], [[0, 1]]]

/-- Concrete image inputs for witnesses. -/
def inputsW : BatchInputs := []

/-- The all-zero two-dimensional adapter used in witnesses. -/
def adW : MLPAdapter :=
  ⟨[[0, 0], [0, 0], [0, 0], [0, 0]], [0, 0, 0, 0], [[0, 0, 0, 0], [0, 0, 0, 0]], [0, 0]⟩

/-- Prompt detector loaded from an all-zero embedding file with the
zero adapter: the residual-adapted embedding row is the zero vector. -/
def dP0 : YOLOWorldPromptDetector :=
  mkPromptDetector sqZeroQ false 80 80 2 1 "z" [[0, 0]] [[1, 1]] false true adW bbW none headW
    (fun s _ => s)

/-- The concrete query call with mixing weights, for witnesses. -/
def qW1 : Except PyErr ((ℕ → ℚ) × (ℕ → ℕ) × Mat) :=
  dW.query_cls_embed sigIdQ textsW ceW (some slW) false true

/-- The concrete query call without mixing weights, for witnesses. -/
def qW2 : Except PyErr ((ℕ → ℚ) × (ℕ → ℕ) × Mat) :=
  dW.query_cls_embed sigIdQ textsW ceW none false true

/-- getD of a mapped list agrees with mapping the getD, at any index in
range (the defaults are then irrelevant). -/
theorem getD_map_of_lt {α β : Type} (f : α → β) (dA : α) (dB : β) :
    ∀ (l : List α) (n : ℕ), n < l.length → (l.map f).getD n dB = f (l.getD n dA)
  | [], n, h => absurd h (by simp)
  | _ :: _, 0, _ => by simp
  | a :: t, n + 1, h => by
    simp only [List.map_cons, List.getD_cons_succ]
    exact getD_map_of_lt f dA dB t n (by simpa using h)

/-- The running best value never decreases along the fold. -/
theorem listMaxArgAux_fst_le : ∀ (xs : List ℚ) (i : ℕ) (best : ℚ × ℕ),
    best.1 ≤ (listMaxArgAux i best xs).1
  | [], _, _ => le_refl _
  | x :: t, i, best => by
    simp only [listMaxArgAux]
    refine le_trans ?_ (listMaxArgAux_fst_le t (i + 1) (if best.1 < x then (x, i) else best))
    by_cases h : best.1 < x
    · simp only [if_pos h]
      exact le_of_lt h
    · simp only [if_neg h]
      exact le_refl _

/-- Every scanned entry is bounded by the final best value. -/
theorem listMaxArgAux_le_of_mem : ∀ (xs : List ℚ) (i : ℕ) (best : ℚ × ℕ) (y : ℚ),
    y ∈ xs → y ≤ (listMaxArgAux i best xs).1
  | [], _, _, _, hy => absurd hy (by simp)
  | x :: t, i, best, y, hy => by
    simp only [listMaxArgAux]
    rcases List.mem_cons.mp hy with h1 | h2
    · subst h1
      refine le_trans ?_ (listMaxArgAux_fst_le t (i + 1) (if best.1 < y then (y, i) else best))
      by_cases h : best.1 < y
      · simp only [if_pos h]
        exact le_refl _
      · simp only [if_neg h]
        exact le_of_not_lt h
    · exact listMaxArgAux_le_of_mem t (i + 1) _ y h2

/-- The fold result is either the initial best or a scanned entry
paired with its absolute index. -/
theorem listMaxArgAux_attain : ∀ (xs : List ℚ) (i : ℕ) (best : ℚ × ℕ),
    listMaxArgAux i best xs = best ∨
      ∃ j, j < xs.length ∧ listMaxArgAux i best xs = (xs.getD j 0, i + j)
  | [], _, _ => Or.inl rfl
  | x :: t, i, best => by
    simp only [listMaxArgAux]
    rcases listMaxArgAux_attain t (i + 1) (if best.1 < x then (x, i) else best) with h | ⟨j, hj, he⟩
    · by_cases hb : best.1 < x
      · right
        refine ⟨0, by simp, ?_⟩
        rw [h, if_pos hb]
        simp
      · left
        rw [h, if_neg hb]
    · right
      refine ⟨j + 1, by simp; omega, ?_⟩
      rw [he]
      have h1 : i + 1 + j = i + (j + 1) := by omega
      rw [h1]
      simp [List.getD_cons_succ]

/-- torch.max over a nonempty list: the returned index is in range, the
entry there is the returned value, and every entry is bounded by it. -/
theorem listMaxArg_spec (l : List ℚ) (hl : l ≠ []) :
    (listMaxArg l).2 < l.length ∧
      l.getD (listMaxArg l).2 0 = (listMaxArg l).1 ∧
      ∀ y ∈ l, y ≤ (listMaxArg l).1 := by
  cases l with
  | nil => exact absurd rfl hl
  | cons x t =>
    refine ⟨?_, ?_, ?_⟩
    · show (listMaxArgAux 1 (x, 0) t).2 < t.length + 1
      rcases listMaxArgAux_attain t 1 (x, 0) with h | ⟨j, hj, he⟩
      · rw [h]
        exact Nat.succ_pos _
      · rw [he]
        show 1 + j < t.length + 1
        omega
    · show (x :: t).getD (listMaxArgAux 1 (x, 0) t).2 0 = (listMaxArgAux 1 (x, 0) t).1
      rcases listMaxArgAux_attain t 1 (x, 0) with h | ⟨j, hj, he⟩
      · rw [h]
        simp
      · rw [he]
        show (x :: t).getD (1 + j) 0 = t.getD j 0
        have h1 : 1 + j = j + 1 := Nat.add_comm 1 j
        rw [h1, List.getD_cons_succ]
    · intro y hy
      rcases List.mem_cons.mp hy with h1 | h2
      · subst h1
        exact listMaxArgAux_fst_le t 1 (y, 0)
      · exact listMaxArgAux_le_of_mem t 1 (x, 0) y h2

/-- The class-column list has one entry per class row. -/
theorem colListQ_length (m : Mat) (v : ℕ) : (colListQ m v).length = m.rows := by
  simp [colListQ]

/-- In-range entries of the class-column list are the matrix entries. -/
theorem colListQ_getD (m : Mat) (v c : ℕ) (hc : c < m.rows) :
    (colListQ m v).getD c 0 = m.val c v := by
  unfold colListQ
  rw [getD_map_of_lt (fun c => m.val c v) 0 0 (List.range m.rows) c (by simpa using hc)]
  congr 1
  rw [List.getD_eq_getElem (List.range m.rows) 0 (by simpa using hc)]
  simp

/-- Sum of an elementwise product with a constant factors the constant
out. -/
theorem sum_map_mul_const (v : List ℚ) (c : ℚ) :
    (v.map (fun x => x * x * c)).sum = (v.map (fun x => x * x)).sum * c := by
  induction v with
  | nil => simp
  | cons x t ih => simp [ih, add_mul]

/-- Dividing a vector by a number whose square is the sum of squares
yields a vector of unit sum of squares. -/
theorem sumSq_map_div (v : List ℚ) (C : ℚ) (hC : C * C = sumSq v) (h0 : C ≠ 0) :
    sumSq (v.map (fun x => x / C)) = 1 := by
  have hS : sumSq v ≠ 0 := by
    rw [← hC]
    exact mul_ne_zero h0 h0
  unfold sumSq
  rw [List.map_map]
  have hrw : ((fun x => x * x) ∘ fun x => x / C) = fun x => x * x * (C * C)⁻¹ := by
    funext x
    simp only [Function.comp_apply]
    rw [div_mul_div_comm, div_eq_mul_inv]
  rw [hrw, sum_map_mul_const, hC]
  show sumSq v * (sumSq v)⁻¹ = 1
  exact mul_inv_cancel₀ hS

/-- Claim C6: two query_cls_embed calls that differ only in the
consider_uncertainty flag return identical scores, labels and logit
map; the flag is accepted but has no effect, and the supervised
renormalization path runs unconditionally whenever scale_logits is
supplied. -/
theorem claim_C6_consider_uncertainty_no_effect (sig : ℚ → ℚ) (d : YOLOWorldDetector)
    (texts : TextsArg) (cls_embed : ClsEmbed) (scale_logits : Option Mat)
    (pre_normalized : Bool) :
    d.query_cls_embed sig texts cls_embed scale_logits true pre_normalized =
      d.query_cls_embed sig texts cls_embed scale_logits false pre_normalized := rfl

/-- Claim C10: extract_feat on an empty list raises IndexError from
indexing batch_data_samples[0], for every detector and in particular
when cached text embeddings exist, so neither the cached fallback nor
the TypeError branch is reached. -/
theorem claim_C10_empty_list_index_error :
    (∀ (d : YOLOWorldDetector) (i : BatchInputs),
        d.extract_feat i (.plist []) = .error .indexError) ∧
      ∀ (d : YOLOWorldDetector) (i : BatchInputs) (ts : TextsTy) (tf : TxtFeats),
        ({d with cached := some (ts, tf)}).extract_feat i (.plist []) =
          .error .indexError :=
  ⟨fun _ _ => rfl, fun _ _ _ _ => rfl⟩

/-- Counterexample to claim C8 as stated: a list whose first element is
a string and whose second element is not a string does not fail with an
assertion error; the query succeeds, because the source only checks
texts[0]. -/
theorem claim_C8_counterexample :
    dW.query_cls_embed sigIdQ (.pylist [PyObj.str "a", PyObj.nonstr]) ceW none false true ≠
        Except.error PyErr.assertionError ∧
      (dW.query_cls_embed sigIdQ (.pylist [PyObj.str "a", PyObj.nonstr]) ceW none false
          true).toOption.isSome = true := by
  refine ⟨?_, rfl⟩
  intro h
  have h2 : (dW.query_cls_embed sigIdQ (.pylist [PyObj.str "a", PyObj.nonstr]) ceW none false
      true).toOption.isSome = true := rfl
  rw [h] at h2
  simp [Except.toOption] at h2

/-- Claim C8 amended: only the first element of a list-form texts
argument is checked; a list whose first element is not a string fails
fast with an assertion error regardless of every other input, and an
empty list raises IndexError from the indexing itself. -/
theorem claim_C8_amended_first_element_checked :
    (∀ (sig : ℚ → ℚ) (d : YOLOWorldDetector) (rest : List PyObj) (ce : ClsEmbed)
        (sl : Option Mat) (cu pre : Bool),
      d.query_cls_embed sig (.pylist (PyObj.nonstr :: rest)) ce sl cu pre =
        .error .assertionError) ∧
      ∀ (sig : ℚ → ℚ) (d : YOLOWorldDetector) (ce : ClsEmbed) (sl : Option Mat) (cu pre : Bool),
        d.query_cls_embed sig (.pylist []) ce sl cu pre = .error .indexError :=
  ⟨fun _ _ _ _ _ _ _ => rfl, fun _ _ _ _ _ _ => rfl⟩

/-- Claim C9: with a nonempty embedding_path the constructed embedding
table is exactly the loaded file contents, whatever the random
initializer would have produced. -/
theorem claim_C9_embedding_roundtrip (sq : ℚ → ℚ) (mm : Bool) (ntr nte pd np : ℕ)
    (path : String) (file rand : List (List ℚ)) (fr ua : Bool) (ad : MLPAdapter)
    (bb : Backbone) (nk : Option Neck) (bh : BBoxHead)
    (ap : BatchSamples → PredResults → BatchSamples)
    (hpath : 0 < path.length) :
    (mkPromptDetector sq mm ntr nte pd np path file rand fr ua ad bb nk bh ap).embeddings =
      file := by
  unfold mkPromptDetector
  simp [hpath]

/-- Witness for claim C9 at a concrete nonempty path and file. -/
theorem claim_C9_witness :
    (mkPromptDetector sigIdQ false 80 80 2 2 "emb" [[1, 2], [3, 4]] [[9, 9]] true false adW bbW
        none headW (fun s _ => s)).embeddings = [[1, 2], [3, 4]] :=
  claim_C9_embedding_roundtrip sigIdQ false 80 80 2 2 "emb" [[1, 2], [3, 4]] [[9, 9]] true false
    adW bbW none headW (fun s _ => s) (by decide)

/-- Claim C4: after predict the head class count equals the class
dimension of the first sample of the returned text features; it does
not depend on the configured num_test_classes; and predict runs the
head predict routine on the extracted features and attaches its results
to the samples. -/
theorem claim_C4_predict_num_classes (d : YOLOWorldDetector) (inputs : BatchInputs)
    (bds : BatchSamples) (rescale : Bool) :
    (d.predict inputs bds rescale).map
        (fun (r : YOLOWorldDetector × BatchSamples × List BackboneCall) =>
          r.1.bbox_head.num_classes) =
        (d.extract_feat inputs bds).map
          (fun (r : ImgFeats × TxtFeats × List BackboneCall) => (r.2.1.getD 0 []).length) ∧
      (∀ k : ℕ,
        (({d with num_test_classes := k}).predict inputs bds rescale).map
            (fun (r : YOLOWorldDetector × BatchSamples × List BackboneCall) =>
              (r.1.bbox_head.num_classes, r.2)) =
          (d.predict inputs bds rescale).map
            (fun (r : YOLOWorldDetector × BatchSamples × List BackboneCall) =>
              (r.1.bbox_head.num_classes, r.2))) ∧
      d.predict inputs bds rescale =
        (match d.extract_feat inputs bds with
        | .error e => .error e
        | .ok (img_feats, txt_feats, calls) =>
          .ok ({d with bbox_head :=
                  {d.bbox_head with num_classes := (txt_feats.getD 0 []).length}},
            d.add_pred_to_datasample bds
              (d.bbox_head.predictFn (txt_feats.getD 0 []).length img_feats txt_feats bds
                rescale),
            calls)) := by
  refine ⟨?_, ?_, ?_⟩
  · cases hex : d.extract_feat inputs bds with
    | error e => simp [YOLOWorldDetector.predict, hex, Except.map]
    | ok r =>
      obtain ⟨imgF, tf, calls⟩ := r
      simp [YOLOWorldDetector.predict, hex, Except.map]
  · intro k
    have hfe : ({d with num_test_classes := k}).extract_feat inputs bds =
        d.extract_feat inputs bds := rfl
    cases hex : d.extract_feat inputs bds with
    | error e => simp [YOLOWorldDetector.predict, hfe, hex, Except.map]
    | ok r =>
      obtain ⟨imgF, tf, calls⟩ := r
      simp [YOLOWorldDetector.predict, hfe, hex, Except.map]
  · cases hex : d.extract_feat inputs bds with
    | error e => simp [YOLOWorldDetector.predict, hex]
    | ok r =>
      obtain ⟨imgF, tf, calls⟩ := r
      simp [YOLOWorldDetector.predict, hex]

/-- Claim C5: whenever cached text features are used (samples None with
a cache, or the cached fallback from a mapping without texts, a
sequence whose first element lacks texts, or any other object), only
the image entry of the backbone runs; in the resolved recompute cases
the joint image-and-text call runs; and reparameterize followed by
predict on None encodes text once during reparameterize and then runs
only the image branch, reusing the cached text features. -/
theorem claim_C5_cached_skips_text_encoder :
    (∀ (d : YOLOWorldDetector) (i : BatchInputs) (ts : TextsTy) (tf : TxtFeats),
        ({d with cached := some (ts, tf)}).extract_feat i .pynone = .ok (imageResult d i tf)) ∧
      (∀ (d : YOLOWorldDetector) (i : BatchInputs) (ts : TextsTy) (tf : TxtFeats)
          (t1 : PyList) (rest : List DataSample),
        ({d with cached := some (ts, tf)}).extract_feat i
            (.plist (DataSample.mk false t1 :: rest)) = .ok (imageResult d i tf)) ∧
      (∀ (d : YOLOWorldDetector) (i : BatchInputs) (ts : TextsTy) (tf : TxtFeats)
          (dts : TextsTy),
        ({d with cached := some (ts, tf)}).extract_feat i (.dict false dts) =
          .ok (imageResult d i tf)) ∧
      (∀ (d : YOLOWorldDetector) (i : BatchInputs) (ts : TextsTy) (tf : TxtFeats),
        ({d with cached := some (ts, tf)}).extract_feat i .other = .ok (imageResult d i tf)) ∧
      (∀ (d : YOLOWorldDetector) (i : BatchInputs) (ts : TextsTy),
        d.extract_feat i (.dict true ts) = .ok (jointResult d i ts)) ∧
      (∀ (d : YOLOWorldDetector) (i : BatchInputs) (t1 : PyList) (rest : List DataSample),
        d.extract_feat i (.plist (DataSample.mk true t1 :: rest)) =
          match gatherTexts (DataSample.mk true t1 :: rest) with
          | .error e => .error e
          | .ok ts => .ok (jointResult d i ts)) ∧
      (∀ (d : YOLOWorldDetector) (ts : TextsTy),
        (d.reparameterize ts).2 = [BackboneCall.text]) ∧
      (∀ (d : YOLOWorldDetector) (ts : TextsTy) (i : BatchInputs),
        (d.reparameterize ts).1.extract_feat i .pynone =
          .ok (imageResult d i (d.backbone.forward_text ts))) ∧
      ∀ (d : YOLOWorldDetector) (ts : TextsTy) (i : BatchInputs) (rc : Bool),
        ((d.reparameterize ts).1.predict i .pynone rc).map
            (fun (r : YOLOWorldDetector × BatchSamples × List BackboneCall) => r.2.2) =
          .ok [BackboneCall.image] := by
  refine ⟨fun _ _ _ _ => rfl, fun _ _ _ _ _ _ => rfl, fun _ _ _ _ _ => rfl,
    fun _ _ _ _ => rfl, fun _ _ _ => rfl, ?_, fun _ _ => rfl, fun _ _ _ => rfl,
    fun _ _ _ _ => rfl⟩
  intro d i t1 rest
  cases hg : gatherTexts (DataSample.mk true t1 :: rest) with
  | error e => simp [YOLOWorldDetector.extract_feat, hg]
  | ok ts => simp [YOLOWorldDetector.extract_feat, hg, jointResult]

/-- Counterexample to claim C3 as stated: with no cached embeddings and
a list whose first element exposes texts but whose second does not, the
claim resolution (clause c requires every element to expose texts)
prescribes a TypeError; the code instead enters the sequence branch via
element 0 and raises AttributeError while gathering. -/
theorem claim_C3_counterexample :
    claimC3Resolve false
        (.plist [DataSample.mk true [], DataSample.mk false []]) = .raiseTypeError ∧
      dW.cached = none ∧
      dW.extract_feat inputsW (.plist [DataSample.mk true [], DataSample.mk false []]) =
        .error .attributeError ∧
      (Except.error .attributeError :
          Except PyErr (ImgFeats × TxtFeats × List BackboneCall)) ≠
        .error .typeError := by
  refine ⟨by decide, rfl, rfl, ?_⟩
  intro h
  simp at h

/-- Claim C3 amended: the resolution priority is (a) None samples use
the cache, raising AttributeError when none exists; (b) a mapping with
a texts key always wins, recomputing through the joint backbone call
even when a cache exists; (c) a nonempty sequence whose FIRST element
exposes texts gathers per-sample texts, raising AttributeError when a
later element lacks the attribute; (d) the remaining shapes (mapping
without the key, sequence whose first element lacks texts, any other
object) fall back to the cache; TypeError is raised exactly when such a
fall-through finds no cache; an empty sequence raises IndexError. -/
theorem claim_C3_amended_resolution_order :
    (∀ (d : YOLOWorldDetector) (i : BatchInputs) (ts : TextsTy) (tf : TxtFeats),
        ({d with cached := some (ts, tf)}).extract_feat i .pynone = .ok (imageResult d i tf)) ∧
      (∀ (d : YOLOWorldDetector) (i : BatchInputs),
        ({d with cached := none}).extract_feat i .pynone = .error .attributeError) ∧
      (∀ (d : YOLOWorldDetector) (i : BatchInputs) (ts : TextsTy),
        d.extract_feat i (.dict true ts) = .ok (jointResult d i ts)) ∧
      (∀ (d : YOLOWorldDetector) (i : BatchInputs) (t1 : PyList) (rest : List DataSample),
        d.extract_feat i (.plist (DataSample.mk true t1 :: rest)) =
          match gatherTexts (DataSample.mk true t1 :: rest) with
          | .error e => .error e
          | .ok ts => .ok (jointResult d i ts)) ∧
      (∀ (d : YOLOWorldDetector) (i : BatchInputs) (ts : TextsTy) (tf : TxtFeats)
          (t1 : PyList) (rest : List DataSample),
        ({d with cached := some (ts, tf)}).extract_feat i
            (.plist (DataSample.mk false t1 :: rest)) = .ok (imageResult d i tf)) ∧
      (∀ (d : YOLOWorldDetector) (i : BatchInputs) (t1 : PyList) (rest : List DataSample),
        ({d with cached := none}).extract_feat i (.plist (DataSample.mk false t1 :: rest)) =
          .error .typeError) ∧
      (∀ (d : YOLOWorldDetector) (i : BatchInputs) (ts : TextsTy) (tf : TxtFeats)
          (dts : TextsTy),
        ({d with cached := some (ts, tf)}).extract_feat i (.dict false dts) =
          .ok (imageResult d i tf)) ∧
      (∀ (d : YOLOWorldDetector) (i : BatchInputs) (dts : TextsTy),
        ({d with cached := none}).extract_feat i (.dict false dts) = .error .typeError) ∧
      (∀ (d : YOLOWorldDetector) (i : BatchInputs) (ts : TextsTy) (tf : TxtFeats),
        ({d with cached := some (ts, tf)}).extract_feat i .other = .ok (imageResult d i tf)) ∧
      (∀ (d : YOLOWorldDetector) (i : BatchInputs),
        ({d with cached := none}).extract_feat i .other = .error .typeError) ∧
      ∀ (d : YOLOWorldDetector) (i : BatchInputs),
        d.extract_feat i (.plist []) = .error .indexError := by
  refine ⟨fun _ _ _ _ => rfl, fun _ _ => rfl, fun _ _ _ => rfl, ?_,
    fun _ _ _ _ _ _ => rfl, fun _ _ _ _ => rfl, fun _ _ _ _ _ => rfl, fun _ _ _ => rfl,
    fun _ _ _ _ => rfl, fun _ _ => rfl, fun _ _ => rfl⟩
  intro d i t1 rest
  cases hg : gatherTexts (DataSample.mk true t1 :: rest) with
  | error e => simp [YOLOWorldDetector.extract_feat, hg]
  | ok ts => simp [YOLOWorldDetector.extract_feat, hg, jointResult]

/-- Claim C1: with scale_logits supplied, the combined logit map at
class c and location v is the weighted sum over heads of the per-head
sigmoid logits, the weight at a supervised location (uncertainty below
0.5, read off the split-off final channel) being the renormalized
mixing weight with the 1e-12 denominator guard, and the raw mixing
weight elsewhere. -/
theorem claim_C1_weighted_combination (sig : ℚ → ℚ) (d : YOLOWorldDetector) (texts : TextsArg)
    (ce : ClsEmbed) (sl : Mat) (cu pre : Bool) (s : ℕ → ℚ) (lb : ℕ → ℕ) (m : Mat)
    (tf : TxtFeats)
    (htf : resolveTxtFeats d texts = .ok tf)
    (hq : d.query_cls_embed sig texts ce (some sl) cu pre = .ok (s, lb, m))
    (hW : sl.cols = d.bbox_head.head_module.cls_contrasts.length + 1) :
    ∀ c v, m.val c v =
      ∑ h ∈ Finset.range d.bbox_head.head_module.cls_contrasts.length,
        claimMixWeight sl d.bbox_head.head_module.cls_contrasts.length v h *
          claimHeadSig sig d pre ce tf h c v := by
  simp only [YOLOWorldDetector.query_cls_embed, htf] at hq
  simp only [Except.ok.injEq, Prod.mk.injEq] at hq
  obtain ⟨hs, hlb, hm⟩ := hq
  subst hm
  intro c v
  simp only [Mat.transposeMat, weightedSumHeads, Mat3.permute201, stackMats,
    renormMaskedRows, dropLastCol]
  rw [List.length_map]
  have hc1 : sl.cols - 1 = d.bbox_head.head_module.cls_contrasts.length := by omega
  rw [hc1]
  refine Finset.sum_congr rfl ?_
  intro h hh
  rw [getD_map_of_lt (fun cc => Mat.sigmoidMap sig (chosenForward pre cc ce tf)) ccZero matZero
    d.bbox_head.head_module.cls_contrasts h (List.mem_range.mp hh)]
  simp only [claimMixWeight, claimHeadSig, Mat.sigmoidMap]
  by_cases hu : sl.val v d.bbox_head.head_module.cls_contrasts.length < 1 / 2
  · simp [hu, mul_comm]
  · simp [hu, mul_comm]

/-- Witness for claim C1 at a concrete two-head, two-class, single
location instance with a supervised location. -/
theorem claim_C1_witness :
    (exOut qW1).2.2.val 0 0 =
      ∑ h ∈ Finset.range 2, claimMixWeight slW 2 0 h * claimHeadSig sigIdQ dW true ceW tfW h 0 0 :=
  claim_C1_weighted_combination sigIdQ dW textsW ceW slW false true (exOut qW1).1
    (exOut qW1).2.1 (exOut qW1).2.2 tfW rfl rfl rfl 0 0

/-- Claim C2: with scale_logits absent, the combined logit map is the
elementwise mean of the per-head sigmoid logits over all configured
heads, and the returned scores and labels are, per location, the
maximum over the class dimension and a class index attaining it. -/
theorem claim_C2_mean_and_argmax (sig : ℚ → ℚ) (d : YOLOWorldDetector) (texts : TextsArg)
    (ce : ClsEmbed) (cu pre : Bool) (s : ℕ → ℚ) (lb : ℕ → ℕ) (m : Mat) (tf : TxtFeats)
    (htf : resolveTxtFeats d texts = .ok tf)
    (hq : d.query_cls_embed sig texts ce none cu pre = .ok (s, lb, m)) :
    (∀ c v, m.val c v =
        (∑ h ∈ Finset.range d.bbox_head.head_module.cls_contrasts.length,
          claimHeadSig sig d pre ce tf h c v) /
          (d.bbox_head.head_module.cls_contrasts.length : ℚ)) ∧
      ∀ v, 0 < m.rows →
        lb v < m.rows ∧ m.val (lb v) v = s v ∧ ∀ c, c < m.rows → m.val c v ≤ s v := by
  simp only [YOLOWorldDetector.query_cls_embed, htf] at hq
  simp only [Except.ok.injEq, Prod.mk.injEq] at hq
  obtain ⟨hs, hlb, hm⟩ := hq
  subst hm
  subst hs
  subst hlb
  constructor
  · intro c v
    simp only [meanStack]
    rw [List.length_map]
    congr 1
    refine Finset.sum_congr rfl ?_
    intro h hh
    rw [getD_map_of_lt (fun cc => Mat.sigmoidMap sig (chosenForward pre cc ce tf)) ccZero matZero
      d.bbox_head.head_module.cls_contrasts h (List.mem_range.mp hh)]
    rfl
  · intro v hrows
    have hne : colListQ (meanStack (d.bbox_head.head_module.cls_contrasts.map (fun cc =>
        Mat.sigmoidMap sig (chosenForward pre cc ce tf)))) v ≠ [] := by
      intro h0
      have hl := colListQ_length (meanStack (d.bbox_head.head_module.cls_contrasts.map (fun cc =>
        Mat.sigmoidMap sig (chosenForward pre cc ce tf)))) v
      rw [h0] at hl
      simp at hl
      omega
    obtain ⟨h1, h2, h3⟩ := listMaxArg_spec _ hne
    rw [colListQ_length] at h1
    refine ⟨h1, ?_, ?_⟩
    · have h4 := colListQ_getD _ v _ h1
      exact h4.symm.trans h2
    · intro c hc
      have hmem : (meanStack (d.bbox_head.head_module.cls_contrasts.map (fun cc =>
          Mat.sigmoidMap sig (chosenForward pre cc ce tf)))).val c v ∈
          colListQ (meanStack (d.bbox_head.head_module.cls_contrasts.map (fun cc =>
            Mat.sigmoidMap sig (chosenForward pre cc ce tf)))) v := by
        unfold colListQ
        exact List.mem_map.mpr ⟨c, List.mem_range.mpr hc, rfl⟩
      exact h3 _ hmem

/-- Witness for claim C2 at the concrete two-head instance: mean value
at one entry, label in range, score attained at the label, one entry
bounded by the score. -/
theorem claim_C2_witness :
    (exOut qW2).2.2.val 0 0 =
        (∑ h ∈ Finset.range 2, claimHeadSig sigIdQ dW true ceW tfW h 0 0) / 2 ∧
      (exOut qW2).2.1 0 < (exOut qW2).2.2.rows ∧
      (exOut qW2).2.2.val ((exOut qW2).2.1 0) 0 = (exOut qW2).1 0 ∧
      (exOut qW2).2.2.val 0 0 ≤ (exOut qW2).1 0 := by
  have h := claim_C2_mean_and_argmax sigIdQ dW textsW ceW false true (exOut qW2).1
    (exOut qW2).2.1 (exOut qW2).2.2 tfW rfl rfl
  exact ⟨h.1 0 0, (h.2 0 (by decide)).1, (h.2 0 (by decide)).2.1,
    (h.2 0 (by decide)).2.2 0 (by decide)⟩

/-- Counterexample to claim C7 as stated: a prompt detector with the
adapter enabled, an all-zero loaded embedding table and the all-zero
adapter produces the zero text-feature vector, whose norm is 0, not 1:
the normalization divides by max(norm, 1e-12) and leaves the zero
vector unchanged, so not every output vector has unit Euclidean norm. -/
theorem claim_C7_counterexample :
    dP0.adapter = some adW ∧
      (dP0.extract_feat sqZeroQ inputsW).2 = [[[0, 0]]] ∧
      sumSq (((dP0.extract_feat sqZeroQ inputsW).2.getD 0 []).getD 0 []) ≠ 1 := by
  have hstruct : (dP0.extract_feat sqZeroQ inputsW).2 =
      List.replicate 1 ((residualRows adW [[0, 0]]).map (l2normalizeVec sqZeroQ eps12)) := rfl
  have hrows : (residualRows adW [[0, 0]]).map (l2normalizeVec sqZeroQ eps12) = [[0, 0]] := by
    norm_num [residualRows, adW, MLPAdapter.applyVec, linearApply, vdot, reluVec,
      l2normalizeVec, sumSq, sqZeroQ, max_def, eps12]
  refine ⟨rfl, ?_, ?_⟩
  · rw [hstruct, hrows]
    rfl
  · rw [hstruct, hrows]
    norm_num [sumSq]

/-- Claim C7 amended: with use_mlp_adapter set, extract_feat broadcasts
to the image batch size the rows obtained by the residual two-layer
adapter update followed by division by max(Euclidean norm, 1e-12); a
row whose residual-adapted vector has an exact square root of its sum
of squares at least 1e-12 therefore has unit sum of squares (the zero
vector instead stays zero). -/
theorem claim_C7_adapter_normalization (sq : ℚ → ℚ) (mm : Bool) (ntr nte pd np : ℕ)
    (path : String) (file rand : List (List ℚ)) (fr : Bool) (ad : MLPAdapter) (bb : Backbone)
    (nk : Option Neck) (bh : BBoxHead) (ap : BatchSamples → PredResults → BatchSamples)
    (i : BatchInputs) :
    ((mkPromptDetector sq mm ntr nte pd np path file rand fr true ad bb nk bh ap).extract_feat
        sq i).2 =
      List.replicate ((bb.forward i none).1.getD 0 fmZero).batch
        ((residualRows ad
            (mkPromptDetector sq mm ntr nte pd np path file rand fr true ad bb nk bh
              ap).embeddings).map
          (l2normalizeVec sq eps12)) ∧
    ∀ r ∈ residualRows ad
        (mkPromptDetector sq mm ntr nte pd np path file rand fr true ad bb nk bh ap).embeddings,
      sq (sumSq r) * sq (sumSq r) = sumSq r → eps12 ≤ sq (sumSq r) →
        sumSq (l2normalizeVec sq eps12 r) = 1 := by
  constructor
  · rfl
  · intro r _ hsq heps
    have h0 : (0 : ℚ) < eps12 := by norm_num [eps12]
    have hC : sq (sumSq r) ≠ 0 := ne_of_gt (lt_of_lt_of_le h0 heps)
    have hM : max (sq (sumSq r)) eps12 = sq (sumSq r) := max_eq_left heps
    unfold l2normalizeVec
    rw [hM]
    exact sumSq_map_div r (sq (sumSq r)) hsq hC

/-- Witness for the amended claim C7 at a unit-norm loaded embedding
row and the zero adapter, where the runtime square root is exact. -/
theorem claim_C7_witness :
    sumSq (l2normalizeVec sigIdQ eps12 [3 / 5, 4 / 5]) = 1 := by
  have hmem : [3 / 5, 4 / 5] ∈ residualRows adW
      (mkPromptDetector sigIdQ false 80 80 2 1 "w" [[3 / 5, 4 / 5]] [[1, 1]] false true adW bbW
        none headW (fun s _ => s)).embeddings := by
    have h : residualRows adW (mkPromptDetector sigIdQ false 80 80 2 1 "w" [[3 / 5, 4 / 5]]
        [[1, 1]] false true adW bbW none headW (fun s _ => s)).embeddings =
        [[3 / 5, 4 / 5]] := by
      show residualRows adW [[3 / 5, 4 / 5]] = [[3 / 5, 4 / 5]]
      norm_num [residualRows, adW, MLPAdapter.applyVec, linearApply, vdot, reluVec]
    rw [h]
    simp
  exact (claim_C7_adapter_normalization sigIdQ false 80 80 2 1 "w" [[3 / 5, 4 / 5]] [[1, 1]]
      false adW bbW none headW (fun s _ => s) inputsW).2 [3 / 5, 4 / 5] hmem
    (by norm_num [sigIdQ, sumSq]) (by norm_num [sigIdQ, sumSq, eps12])

end YOLOWorldSpec
